import Mathlib

/-!
Verification development for the proxy-checker service (`src/app.py`).

The Python source is shallowly embedded: pure helpers become Lean
functions over `List Char` / `String`; the network and the Google-Sheets
store are oracles passed in explicitly (`Except` values for calls that
can raise); module-global mutable state becomes an explicit state record
threaded through the functions that read or write it.
-/

/-! ## Python string primitives

`str.strip()` and `str.split(sep)` are modelled character-by-character so
that every definition is structurally recursive and kernel-evaluable.
`isPySpace` covers the ASCII whitespace characters stripped by Python's
`str.strip()` (Python also strips some further Unicode spaces; no input in
any claim depends on those). -/

def isPySpace (c : Char) : Bool :=
  c == ' ' || c == '\t' || c == '\n' || c == '\r' || c == '\x0b' || c == '\x0c'

/-- Model of Python `s.strip()`: drop leading and trailing whitespace. -/
def pyStrip (s : String) : String :=
  ⟨((s.data.dropWhile isPySpace).reverse.dropWhile isPySpace).reverse⟩

/-- Auxiliary for `pySplit`: walk the characters, cutting at each separator.
`acc` holds the current field reversed. -/
def splitCharAux (sep : Char) : List Char → List Char → List (List Char)
  | [], acc => [acc.reverse]
  | c :: cs, acc =>
    if c == sep then acc.reverse :: splitCharAux sep cs []
    else splitCharAux sep cs (c :: acc)

/-- Model of Python `s.split(sep)` for a one-character separator: like
Python, `"".split(":") = [""]` and `":".split(":") = ["", ""]`. -/
def pySplit (s : String) (sep : Char) : List String :=
  (splitCharAux sep s.data []).map (fun l => ⟨l⟩)

/-! ## ProxyRecord parser (`validate_proxy_format`, app.py lines 192-195)

Python: `parts = proxy_line.strip().split(":"); return len(parts) == 4 and
all(parts)` — `all(parts)` is truthiness, i.e. every part non-empty.
`strip`/`split` never raise, so the `except` branch is dead code. -/

def validate_proxy_format (proxy_line : String) : Bool :=
  let parts := pySplit (pyStrip proxy_line) ':'
  parts.length == 4 && parts.all (fun p => !(p == ""))

/-! ## Probe executor (`get_ip_from_proxy`, app.py lines 197-213)

The HTTP round trip is an oracle: `Except RequestError HttpResponse`,
where `RequestError` covers the exceptions `requests` can raise (the code
catches them all in a single `except Exception` and returns `None`). -/

structure HttpResponse where
  status : Nat
  body : String
deriving DecidableEq

structure IpResult where
  proxy : String
  ip : String
deriving DecidableEq

/-- Kinds of exception the request can raise in the Python code. The
source does not inspect the kind (beyond logging its name). -/
inductive RequestError
  | connectionError
  | proxyError
  | timeout
  | unexpected
deriving DecidableEq

/-- The exit-IP sanity check of app.py line 211:
`if ip and '.' in ip and 7 <= len(ip) <= 15`. -/
def acceptIpBody (ip : String) : Bool :=
  !(ip == "") && ip.data.contains '.' && (7 ≤ ip.length && ip.length ≤ 15)

/-- Classification of a completed HTTP response (app.py lines 209-212):
on 200 the body is stripped and sanity-checked, anything else is `none`. -/
def handleResponse (proxy_line : String) (resp : HttpResponse) : Option IpResult :=
  if resp.status == 200 then
    let ip := pyStrip resp.body
    if acceptIpBody ip then some ⟨proxy_line, ip⟩ else none
  else none

/-- Model of `get_ip_from_proxy`: invalid format short-circuits to `none`;
a raised exception is swallowed by the catch-all and yields `none`;
otherwise the response is classified. -/
def get_ip_from_proxy (doRequest : Except RequestError HttpResponse)
    (proxy_line : String) : Option IpResult :=
  if !(validate_proxy_format proxy_line) then none
  else
    match doRequest with
    | .ok resp => handleResponse proxy_line resp
    | .error _ => none

/-! ## Concurrent batch scheduler (`index`, app.py lines 288-301)

One future per valid proxy; `as_completed` yields each future exactly once
in an arbitrary (completion) order; the drain loop appends truthy results
to `intermediate_results` and swallows per-task exceptions. A task's
single outcome is `Except String (Option IpResult)`: an exception raised
out of the task, or the task's returned value. -/

abbrev ProbeOutcome := Except String (Option IpResult)

/-- Drain loop with explicit accumulator `(results so far, failures so
far)`: a `.ok (some r)` outcome appends `r`, every other outcome is a
failure (a `None` return or a raised exception, app.py lines 293-301). -/
def collectAux (acc : List IpResult × Nat) : List ProbeOutcome → List IpResult × Nat
  | [] => acc
  | o :: os =>
    match o with
    | .ok (some r) => collectAux (acc.1 ++ [r], acc.2) os
    | .ok none => collectAux (acc.1, acc.2 + 1) os
    | .error _ => collectAux (acc.1, acc.2 + 1) os

/-- Collect the drained outcomes of a completed batch. -/
def collectResults (outs : List ProbeOutcome) : List IpResult × Nat :=
  collectAux ([], 0) outs

/-- Run a batch: `probe` is the (deterministic, per-batch) outcome oracle
of each task; `completionOrder` is the order in which `as_completed`
delivers the futures — a permutation of the submitted valid proxies. -/
def runBatch (probe : String → ProbeOutcome) (completionOrder : List String) :
    List IpResult × Nat :=
  collectResults (completionOrder.map probe)

/-! ## Input-line scan (`index`, app.py lines 269-277)

Each submitted line is stripped; blank lines are skipped entirely, valid
lines are collected in order, invalid non-blank lines are counted. -/

def scan_lines : List String → List String × Nat
  | [] => ([], 0)
  | line :: rest =>
    let proxy := pyStrip line
    let r := scan_lines rest
    if proxy == "" then r
    else if validate_proxy_format proxy then (proxy :: r.1, r.2)
    else (r.1, r.2 + 1)

/-! ## Membership classifier (app.py lines 146-188 and 308-327)

`get_ips_set_from_sheet` keeps a per-set TTL cache (`_used_ips_cache_set`
/ `_bad_ips_cache_set` with expiry times); on a cache miss it reads the
IP column of the worksheet, drops the header row, discards falsy cells
and caches the set for `CACHE_DURATION_SECONDS`; if the read raises it
returns an empty set without touching the IP-set cache. The worksheet
read is an oracle `Except Unit (List String)` delivering the full column
(header included), mirroring `sheet.col_values(IP_COLUMN_INDEX)`. -/

def CACHE_DURATION_SECONDS : Nat := 60

structure IpsCache where
  cacheSet : Option (List String)
  expiry : Nat
deriving DecidableEq

/-- Cache-miss path of `get_ips_set_from_sheet` (app.py lines 165-181):
fetch the column, drop the header, keep truthy cells, cache with TTL;
on error return the empty set and leave the IP-set cache unchanged. -/
def fetch_ips_set (now : Nat) (fetch : Except Unit (List String)) (c : IpsCache) :
    List String × IpsCache :=
  match fetch with
  | .ok column =>
    let s := (column.drop 1).filter (fun ip => !(ip == ""))
    (s, ⟨some s, now + CACHE_DURATION_SECONDS⟩)
  | .error _ => ([], c)

/-- Model of `get_ips_set_from_sheet`: an unexpired cached set is returned
as is; otherwise the fetch path runs. -/
def get_ips_set_from_sheet (now : Nat) (fetch : Except Unit (List String))
    (c : IpsCache) : List String × IpsCache :=
  match c.cacheSet with
  | some s => if now < c.expiry then (s, c) else fetch_ips_set now fetch c
  | none => fetch_ips_set now fetch c

structure Annotated where
  proxy : String
  ip : String
  used : Bool
  bad : Bool
deriving DecidableEq

/-- The annotation loop of app.py lines 319-322: each intermediate result
gets `used`/`bad` membership flags against the two fetched sets. -/
def annotate (usedSet badSet : List String) (rs : List IpResult) : List Annotated :=
  rs.map (fun r => ⟨r.proxy, r.ip, usedSet.contains r.ip, badSet.contains r.ip⟩)

/-- The classification phase of `index` (app.py lines 308-327): fetch the
used and bad sets (each failing open to an empty set inside
`get_ips_set_from_sheet`) and annotate every intermediate result. -/
def classify_results (now : Nat) (fetchUsed fetchBad : Except Unit (List String))
    (usedCache badCache : IpsCache) (rs : List IpResult) : List Annotated :=
  let usedSet := (get_ips_set_from_sheet now fetchUsed usedCache).1
  let badSet := (get_ips_set_from_sheet now fetchBad badCache).1
  annotate usedSet badSet rs

/-! ## Result ranker -/

/-- Modelled from the spec: the Result Ranker of spec section 4.5 runs at
the presentation boundary (`templates/index.html`), which is not under
`src/`; `index` hands `results_final` over in completion order. Per the
spec it is a stable ascending sort by the key `(badFlag, usedFlag)`, both
booleans read as 0/1, so the key below is the lexicographic rank
`2*bad + used`. -/
def rankKey (a : Annotated) : Nat :=
  (if a.bad then 2 else 0) + (if a.used then 1 else 0)

/-- Modelled from the spec: stable insertion of one element — it goes
after every earlier element with a strictly smaller key and before the
first with an equal or larger key, so earlier input wins ties. -/
def rankInsert (x : Annotated) : List Annotated → List Annotated
  | [] => [x]
  | y :: ys => if rankKey y < rankKey x then y :: rankInsert x ys else x :: y :: ys

/-- Modelled from the spec: `rank`, the stable sort of the annotated
results by `rankKey` (insertion sort, which is stable). -/
def rank : List Annotated → List Annotated
  | [] => []
  | x :: xs => rankInsert x (rank xs)

/-! ## Mark-bad endpoint (`mark_bad`, app.py lines 371-397, and
`append_bad_ip`, lines 122-143)

The Google-Sheets side is an environment of oracle outcomes: whether
opening the worksheet, reading the existing IP column and appending a row
succeed, plus the timestamp string the code would generate. The mutable
module state is the BAD sheet's data rows (below the header), the sheet
handle cache `_bad_sheet_cache`, and the IP-set cache
`_bad_ips_cache_set` / `_bad_cache_expiry`. -/

structure SheetEnv where
  sheetOk : Bool
  colValuesOk : Bool
  appendOk : Bool
  timestamp : String
deriving DecidableEq

structure StoreState where
  badRows : List (String × String)
  badSheetCacheValid : Bool
  badIpsCacheSet : Option (List String)
  badCacheExpiry : Nat
deriving DecidableEq

/-- Model of Python `re.match(r"^\d{1,3}\.\d{1,3}\.\d{1,3}\.\d{1,3}$", s)`
being truthy: a group is 1-3 digits (`Char.isDigit`; Python's `\d` also
accepts non-ASCII decimal digits, which no claim exercises). -/
def isIpGroup (s : String) : Bool :=
  (1 ≤ s.length && s.length ≤ 3) && s.data.all Char.isDigit

/-- Four dot-separated 1-3 digit groups and nothing else. Since groups
hold no dots, splitting on the dot is exactly the regex decomposition. -/
def dottedQuad (s : String) : Bool :=
  let parts := pySplit s '.'
  parts.length == 4 && parts.all isIpGroup

/-- Truthiness of the `re.match` in app.py line 381. In Python `$` also
matches just before a single trailing newline, so `"1.2.3.4\n"` matches. -/
def matchesIpPattern (s : String) : Bool :=
  dottedQuad s ||
    (s.data.getLast? == some '\n' && dottedQuad ⟨s.data.dropLast⟩)

/-- Model of `append_bad_ip` (app.py lines 122-143): open the BAD sheet
(failure resets the sheet-handle cache and returns `false`); read the
existing IP column — if the read succeeds and the IP is already present,
return `true` without appending; otherwise (including a failed
duplicate check, which the code logs and appends anyway) append
`(ip, timestamp)`, a failed append resetting the sheet-handle cache. -/
def append_bad_ip (env : SheetEnv) (st : StoreState) (ip : String) :
    Bool × StoreState :=
  if env.sheetOk then
    if env.colValuesOk && (st.badRows.map Prod.fst).contains ip then
      (true, st)
    else if env.appendOk then
      (true, { st with badRows := st.badRows ++ [(ip, env.timestamp)] })
    else
      (false, { st with badSheetCacheValid := false })
  else
    (false, { st with badSheetCacheValid := false })

inductive MarkBadResult
  | success
  | invalidFormat
  | appendFailed
deriving DecidableEq

/-- Model of the `/mark-bad` handler (app.py lines 371-397): reject an IP
failing the regex with no state change; otherwise invalidate the bad
IP-set cache immediately, then attempt the append. -/
def mark_bad (env : SheetEnv) (st : StoreState) (ip : String) :
    MarkBadResult × StoreState :=
  if matchesIpPattern ip then
    let st1 : StoreState := { st with badIpsCacheSet := none, badCacheExpiry := 0 }
    let r := append_bad_ip env st1 ip
    (if r.1 then .success else .appendFailed, r.2)
  else
    (.invalidFormat, st)

/-! ## Helper lemmas -/

theorem collectAux_append (l₁ l₂ : List ProbeOutcome) :
    ∀ acc, collectAux acc (l₁ ++ l₂) = collectAux (collectAux acc l₁) l₂ := by
  induction l₁ with
  | nil => intro acc; rfl
  | cons o os ih =>
    intro acc
    cases o with
    | ok v =>
      cases v with
      | some r => simpa [collectAux] using ih _
      | none => simpa [collectAux] using ih _
    | error e => simpa [collectAux] using ih _

theorem collectAux_shift (l : List ProbeOutcome) :
    ∀ (a : List IpResult) (n : Nat),
      collectAux (a, n + 1) l = ((collectAux (a, n) l).1, (collectAux (a, n) l).2 + 1) := by
  induction l with
  | nil => intro a n; rfl
  | cons o os ih =>
    intro a n
    cases o with
    | ok v =>
      cases v with
      | some r => simpa [collectAux] using ih (a ++ [r]) n
      | none => simpa [collectAux] using ih a (n + 1)
    | error e => simpa [collectAux] using ih a (n + 1)

theorem collectAux_total (l : List ProbeOutcome) :
    ∀ (a : List IpResult) (n : Nat),
      (collectAux (a, n) l).1.length + (collectAux (a, n) l).2 = a.length + n + l.length := by
  induction l with
  | nil => intro a n; simp [collectAux]
  | cons o os ih =>
    intro a n
    cases o with
    | ok v =>
      cases v with
      | some r =>
        have h := ih (a ++ [r]) n
        simp [collectAux] at h ⊢
        omega
      | none =>
        have h := ih a (n + 1)
        simp [collectAux] at h ⊢
        omega
    | error e =>
      have h := ih a (n + 1)
      simp [collectAux] at h ⊢
      omega

/-! ## Claim theorems -/

/-- C1: for every batch of valid proxies, exactly one probe task is created
per valid proxy and every delivered outcome is counted once, so the number
of successful outcomes plus the number of failed outcomes equals the
number of valid proxies — stated for any completion order that is a
permutation of the submitted valid proxies. -/
theorem batch_outcome_count (probe : String → ProbeOutcome)
    (validProxies completionOrder : List String)
    (h : completionOrder.Perm validProxies) :
    (runBatch probe completionOrder).1.length + (runBatch probe completionOrder).2
      = validProxies.length := by
  unfold runBatch collectResults
  have htot := collectAux_total (completionOrder.map probe) [] 0
  simp only [List.length_nil, Nat.zero_add, List.length_map] at htot
  rw [htot, h.length_eq]

theorem batch_outcome_count_witness :
    (["b:1:u:w", "a:1:u:w"] : List String).Perm ["a:1:u:w", "b:1:u:w"] ∧
    (runBatch (fun p => if p == "a:1:u:w" then .ok (some ⟨p, "1.2.3.4"⟩) else .error "boom")
        ["b:1:u:w", "a:1:u:w"]).1.length
      + (runBatch (fun p => if p == "a:1:u:w" then .ok (some ⟨p, "1.2.3.4"⟩) else .error "boom")
        ["b:1:u:w", "a:1:u:w"]).2 = 2 :=
  ⟨by decide,
   batch_outcome_count (fun p => if p == "a:1:u:w" then .ok (some ⟨p, "1.2.3.4"⟩) else .error "boom")
     ["a:1:u:w", "b:1:u:w"] ["b:1:u:w", "a:1:u:w"] (by decide)⟩

/-- C4: a single task that raises an unexpected error is a failure of that
task alone — removing it from the completion stream leaves the sibling
results exactly unchanged, and it contributes exactly one failure. -/
theorem failing_task_isolated (pre post : List ProbeOutcome) (e : String) :
    (collectResults (pre ++ Except.error e :: post)).1
        = (collectResults (pre ++ post)).1 ∧
    (collectResults (pre ++ Except.error e :: post)).2
        = (collectResults (pre ++ post)).2 + 1 := by
  unfold collectResults
  rw [collectAux_append, collectAux_append]
  have hstep : collectAux (collectAux ([], 0) pre) (Except.error e :: post)
      = collectAux ((collectAux ([], 0) pre).1, (collectAux ([], 0) pre).2 + 1) post := by
    simp [collectAux]
  rw [hstep, collectAux_shift]
  exact ⟨rfl, rfl⟩

/-- C5: `validate_proxy_format` is true exactly when stripping whitespace
and splitting on `:` yields exactly 4 parts, all non-empty; the function
is total, so no exception escapes and malformed input yields `false`. -/
theorem validate_format_iff (line : String) :
    validate_proxy_format line = true ↔
      ((pySplit (pyStrip line) ':').length = 4 ∧
        ∀ p ∈ pySplit (pyStrip line) ':', p ≠ "") := by
  simp [validate_proxy_format, List.all_eq_true]

theorem validate_format_iff_witness :
    validate_proxy_format "  1.2.3.4:8080:alice:secret " = true :=
  (validate_format_iff "  1.2.3.4:8080:alice:secret ").mpr (by decide)

/-- C9: an input line that is blank after stripping contributes neither to
the valid-proxy list nor to the invalid-format count: scanning the lines
gives exactly the same result as scanning with all blank lines removed. -/
theorem blank_lines_skipped (lines : List String) :
    scan_lines lines = scan_lines (lines.filter (fun l => !(pyStrip l == ""))) := by
  induction lines with
  | nil => rfl
  | cons line rest ih =>
    cases hb : pyStrip line == "" with
    | true =>
      have h1 : scan_lines (line :: rest) = scan_lines rest := by
        simp [scan_lines, hb]
      have h2 : (line :: rest).filter (fun l => !(pyStrip l == ""))
          = rest.filter (fun l => !(pyStrip l == "")) := by
        simp [List.filter_cons, hb]
      rw [h1, h2, ih]
    | false =>
      have h2 : (line :: rest).filter (fun l => !(pyStrip l == ""))
          = line :: rest.filter (fun l => !(pyStrip l == "")) := by
        simp [List.filter_cons, hb]
      rw [h2]
      simp only [scan_lines, ih]

/-- C6: for a probe whose request completes with a response, the probe
returns a success carrying the trimmed body as the exit IP exactly when
the status is 200 and the trimmed body is non-empty, contains a `.`,
and has length between 7 and 15; and any returned success carries exactly
the trimmed body. A non-200 status never yields a success. -/
theorem probe_success_iff (proxy_line : String) (resp : HttpResponse)
    (hv : validate_proxy_format proxy_line = true) :
    (get_ip_from_proxy (.ok resp) proxy_line
        = some ⟨proxy_line, pyStrip resp.body⟩ ↔
      (resp.status = 200 ∧ pyStrip resp.body ≠ "" ∧
        (pyStrip resp.body).data.contains '.' = true ∧
        7 ≤ (pyStrip resp.body).length ∧ (pyStrip resp.body).length ≤ 15)) ∧
    (∀ r, get_ip_from_proxy (.ok resp) proxy_line = some r →
      r = ⟨proxy_line, pyStrip resp.body⟩) := by
  have hbody : acceptIpBody (pyStrip resp.body) = true ↔
      (pyStrip resp.body ≠ "" ∧ (pyStrip resp.body).data.contains '.' = true ∧
        7 ≤ (pyStrip resp.body).length ∧ (pyStrip resp.body).length ≤ 15) := by
    simp [acceptIpBody, and_assoc]
  have hval : get_ip_from_proxy (.ok resp) proxy_line = handleResponse proxy_line resp := by
    simp [get_ip_from_proxy, hv]
  rw [hval]
  cases h200 : resp.status == 200 with
  | false =>
    have hnone : handleResponse proxy_line resp = none := by
      simp [handleResponse, h200]
    rw [hnone]
    refine ⟨⟨fun h => by simp at h, ?_⟩, fun r hr => by simp at hr⟩
    rintro ⟨h, -⟩
    rw [h] at h200
    simp at h200
  | true =>
    have h200' : resp.status = 200 := by simpa using h200
    cases hacc : acceptIpBody (pyStrip resp.body) with
    | true =>
      have hsome : handleResponse proxy_line resp
          = some ⟨proxy_line, pyStrip resp.body⟩ := by
        simp [handleResponse, h200, hacc]
      rw [hsome]
      have hprops := hbody.mp hacc
      exact ⟨iff_of_true rfl ⟨h200', hprops⟩, fun r hr => by
        simp only [Option.some.injEq] at hr
        exact hr.symm⟩
    | false =>
      have hnone : handleResponse proxy_line resp = none := by
        simp [handleResponse, h200, hacc]
      rw [hnone]
      refine ⟨⟨fun h => by simp at h, ?_⟩, fun r hr => by simp at hr⟩
      rintro ⟨-, hrest⟩
      rw [hbody.mpr hrest] at hacc
      cases hacc

theorem probe_success_iff_witness :
    validate_proxy_format "h:p:u:w" = true ∧
    get_ip_from_proxy (.ok ⟨200, " 1.2.3.4 \n"⟩) "h:p:u:w"
      = some ⟨"h:p:u:w", "1.2.3.4"⟩ :=
  ⟨by decide,
   ((probe_success_iff "h:p:u:w" ⟨200, " 1.2.3.4 \n"⟩ (by decide)).1).mpr
     (by refine ⟨rfl, ?_, ?_, ?_, ?_⟩ <;> decide)⟩

/-- C7 counterexample: the probe does not return a typed outcome that
distinguishes failure kinds — a timeout, a proxy error, a connection
error, a non-200 status and a malformed 200 body all produce the same
untyped `none`, so no two of the claimed distinct failure values exist. -/
theorem probe_failures_untyped_cex :
    get_ip_from_proxy (.error .timeout) "h:p:u:w"
        = get_ip_from_proxy (.error .proxyError) "h:p:u:w" ∧
    get_ip_from_proxy (.error .connectionError) "h:p:u:w"
        = get_ip_from_proxy (.ok ⟨502, "bad gateway"⟩) "h:p:u:w" ∧
    get_ip_from_proxy (.error .timeout) "h:p:u:w" = none ∧
    get_ip_from_proxy (.ok ⟨200, "not an ip address at all"⟩) "h:p:u:w" = none := by
  refine ⟨rfl, ?_, rfl, ?_⟩ <;> decide

/-- C7 amended: no exception propagates out of the probe, but every
failure — any raised request exception, a non-200 status, or a 200 body
failing the exit-IP check — yields the same untyped `none`; failure kinds
are distinguished only in the log line, not in the returned value. -/
theorem probe_total_failure_none (proxy_line : String) (e : RequestError)
    (resp : HttpResponse) :
    get_ip_from_proxy (.error e) proxy_line = none ∧
    ((resp.status = 200 → acceptIpBody (pyStrip resp.body) = false) →
      get_ip_from_proxy (.ok resp) proxy_line = none) := by
  constructor
  · cases hv : validate_proxy_format proxy_line <;>
      simp [get_ip_from_proxy, hv]
  · intro h
    cases hv : validate_proxy_format proxy_line with
    | false => simp [get_ip_from_proxy, hv]
    | true =>
      cases h200 : resp.status == 200 with
      | false => simp [get_ip_from_proxy, handleResponse, hv, h200]
      | true =>
        have hacc := h (by simpa using h200)
        simp [get_ip_from_proxy, handleResponse, hv, h200, hacc]

theorem probe_total_failure_none_witness :
    get_ip_from_proxy (.error .timeout) "a:b:c:d" = none ∧
    get_ip_from_proxy (.ok ⟨404, "not found"⟩) "a:b:c:d" = none :=
  ⟨(probe_total_failure_none "a:b:c:d" .timeout ⟨404, "not found"⟩).1,
   (probe_total_failure_none "a:b:c:d" .timeout ⟨404, "not found"⟩).2
     (by intro h; exact absurd h (by decide))⟩

/-- C2 counterexample: with the used-set fetch failing and the bad-set
fetch succeeding, the classifier does not default both flags to `false` —
the bad flag is still computed from the successfully fetched bad set, so
a result whose IP is in the bad set comes back with `bad = true`. -/
theorem classify_fail_open_cex :
    classify_results 0 (.error ()) (.ok ["IP", "9.9.9.9"]) ⟨none, 0⟩ ⟨none, 0⟩
        [⟨"p", "9.9.9.9"⟩]
      = [⟨"p", "9.9.9.9", false, true⟩] := by decide

/-- C2 amended: a failed set-fetch fails open per set — the failed set is
treated as empty, so the corresponding flag defaults to `false` for every
result (both flags `false` when both fetches fail); the full batch is
always returned, never dropped, and no exception escapes. Stated with
both caches empty so that each fetch is actually consulted. -/
theorem classify_fail_open (now : Nat) (fetchUsed fetchBad : Except Unit (List String))
    (uc bc : IpsCache) (rs : List IpResult)
    (hu : uc.cacheSet = none) (hb : bc.cacheSet = none) :
    (classify_results now fetchUsed fetchBad uc bc rs).length = rs.length ∧
    (fetchUsed = .error () →
      ∀ a ∈ classify_results now fetchUsed fetchBad uc bc rs, a.used = false) ∧
    (fetchBad = .error () →
      ∀ a ∈ classify_results now fetchUsed fetchBad uc bc rs, a.bad = false) := by
  have hgu : get_ips_set_from_sheet now fetchUsed uc = fetch_ips_set now fetchUsed uc := by
    unfold get_ips_set_from_sheet
    rw [hu]
  have hgb : get_ips_set_from_sheet now fetchBad bc = fetch_ips_set now fetchBad bc := by
    unfold get_ips_set_from_sheet
    rw [hb]
  unfold classify_results
  rw [hgu, hgb]
  refine ⟨by simp [annotate], ?_, ?_⟩
  · intro hfail a ha
    rw [hfail] at ha
    simp only [fetch_ips_set, annotate, List.mem_map] at ha
    obtain ⟨r, -, hr⟩ := ha
    rw [← hr]
    rfl
  · intro hfail a ha
    rw [hfail] at ha
    simp only [fetch_ips_set, annotate, List.mem_map] at ha
    obtain ⟨r, -, hr⟩ := ha
    rw [← hr]
    rfl

theorem classify_fail_open_witness :
    (classify_results 5 (.error ()) (.error ()) ⟨none, 0⟩ ⟨none, 0⟩
        [⟨"p", "9.9.9.9"⟩]).length = 1 ∧
    (∀ a ∈ classify_results 5 (.error ()) (.error ()) ⟨none, 0⟩ ⟨none, 0⟩
        [⟨"p", "9.9.9.9"⟩], a.used = false) ∧
    (∀ a ∈ classify_results 5 (.error ()) (.error ()) ⟨none, 0⟩ ⟨none, 0⟩
        [⟨"p", "9.9.9.9"⟩], a.bad = false) := by
  have h := classify_fail_open 5 (.error ()) (.error ()) ⟨none, 0⟩ ⟨none, 0⟩
    [⟨"p", "9.9.9.9"⟩] rfl rfl
  exact ⟨h.1, h.2.1 rfl, h.2.2 rfl⟩

/-- C8: a mark-bad request is accepted only when the IP matches the strict
dotted-quad pattern — a rejected IP returns an error with the state fully
unchanged (no append, no cache change); on an accepted IP the bad store
is consulted and an already-present IP appends nothing, an absent IP
appends `(ip, timestamp)` (when the sheet operations succeed), and the
bad-set cache is invalidated. -/
theorem mark_bad_contract (env : SheetEnv) (st : StoreState) (ip : String) :
    (matchesIpPattern ip = false →
      (mark_bad env st ip).1 = .invalidFormat ∧ (mark_bad env st ip).2 = st) ∧
    (matchesIpPattern ip = true →
      (mark_bad env st ip).2.badIpsCacheSet = none ∧
      (mark_bad env st ip).2.badCacheExpiry = 0 ∧
      (env.sheetOk = true → env.colValuesOk = true →
        (st.badRows.map Prod.fst).contains ip = true →
        ((mark_bad env st ip).1 = .success ∧
          (mark_bad env st ip).2.badRows = st.badRows)) ∧
      (env.sheetOk = true → env.appendOk = true →
        (st.badRows.map Prod.fst).contains ip = false →
        ((mark_bad env st ip).1 = .success ∧
          (mark_bad env st ip).2.badRows = st.badRows ++ [(ip, env.timestamp)]))) := by
  constructor
  · intro hm
    unfold mark_bad
    simp [hm]
  · intro hm
    have hcache : (mark_bad env st ip).2.badIpsCacheSet = none ∧
        (mark_bad env st ip).2.badCacheExpiry = 0 := by
      unfold mark_bad append_bad_ip
      cases hs : env.sheetOk with
      | false =>
        simp only [hm, hs, Bool.false_eq_true, eq_self_iff_true, if_true, if_false]
        exact ⟨trivial, trivial⟩
      | true =>
        cases hdup : env.colValuesOk && (st.badRows.map Prod.fst).contains ip with
        | true =>
          simp only [hm, hs, hdup, Bool.false_eq_true, eq_self_iff_true, if_true, if_false]
          exact ⟨trivial, trivial⟩
        | false =>
          cases hap : env.appendOk with
          | true =>
            simp only [hm, hs, hdup, hap, Bool.false_eq_true, eq_self_iff_true,
              if_true, if_false]
            exact ⟨trivial, trivial⟩
          | false =>
            simp only [hm, hs, hdup, hap, Bool.false_eq_true, eq_self_iff_true,
              if_true, if_false]
            exact ⟨trivial, trivial⟩
    refine ⟨hcache.1, hcache.2, ?_, ?_⟩
    · intro hs hcol hin
      unfold mark_bad append_bad_ip
      simp only [hm, hs, hcol, hin, Bool.true_and, Bool.false_and, Bool.false_eq_true,
        eq_self_iff_true, if_true, if_false]
      exact ⟨trivial, trivial⟩
    · intro hs hap hout
      unfold mark_bad append_bad_ip
      cases hcol : env.colValuesOk with
      | false =>
        simp only [hm, hs, hap, hcol, hout, Bool.true_and, Bool.false_and,
          Bool.false_eq_true, eq_self_iff_true, if_true, if_false]
        exact ⟨trivial, trivial⟩
      | true =>
        simp only [hm, hs, hap, hcol, hout, Bool.true_and, Bool.false_and,
          Bool.false_eq_true, eq_self_iff_true, if_true, if_false]
        exact ⟨trivial, trivial⟩

theorem mark_bad_contract_witness :
    matchesIpPattern "10.0.0.7" = true ∧
    (mark_bad ⟨true, true, true, "ts"⟩
        ⟨[("9.9.9.9", "old")], true, some ["9.9.9.9"], 42⟩ "10.0.0.7").1 = .success ∧
    (mark_bad ⟨true, true, true, "ts"⟩
        ⟨[("9.9.9.9", "old")], true, some ["9.9.9.9"], 42⟩ "10.0.0.7").2.badRows
      = [("9.9.9.9", "old"), ("10.0.0.7", "ts")] ∧
    (mark_bad ⟨true, true, true, "ts"⟩
        ⟨[("9.9.9.9", "old")], true, some ["9.9.9.9"], 42⟩ "10.0.0.7").2.badIpsCacheSet
      = none := by
  have h := (mark_bad_contract ⟨true, true, true, "ts"⟩
    ⟨[("9.9.9.9", "old")], true, some ["9.9.9.9"], 42⟩ "10.0.0.7").2 (by decide)
  have happ := h.2.2.2 rfl rfl (by decide)
  exact ⟨by decide, happ.1, happ.2, h.1⟩

/-- C10: once the IP passes format validation, `mark_bad` clears the
bad-set membership cache no matter how the append attempt turns out —
in particular the cache is cleared even when the sheet operations fail
and the request returns an error. -/
theorem mark_bad_cache_cleared (env : SheetEnv) (st : StoreState) (ip : String)
    (h : matchesIpPattern ip = true) :
    (mark_bad env st ip).2.badIpsCacheSet = none ∧
    (mark_bad env st ip).2.badCacheExpiry = 0 := by
  unfold mark_bad append_bad_ip
  cases hs : env.sheetOk with
  | false =>
    simp only [h, hs, Bool.false_eq_true, eq_self_iff_true, if_true, if_false]
    exact ⟨trivial, trivial⟩
  | true =>
    cases hdup : env.colValuesOk && (st.badRows.map Prod.fst).contains ip with
    | true =>
      simp only [h, hs, hdup, Bool.false_eq_true, eq_self_iff_true, if_true, if_false]
      exact ⟨trivial, trivial⟩
    | false =>
      cases hap : env.appendOk with
      | true =>
        simp only [h, hs, hdup, hap, Bool.false_eq_true, eq_self_iff_true,
          if_true, if_false]
        exact ⟨trivial, trivial⟩
      | false =>
        simp only [h, hs, hdup, hap, Bool.false_eq_true, eq_self_iff_true,
          if_true, if_false]
        exact ⟨trivial, trivial⟩

theorem mark_bad_cache_cleared_witness :
    (mark_bad ⟨false, true, true, "ts"⟩
        ⟨[("8.8.8.8", "x")], true, some ["8.8.8.8"], 77⟩ "1.2.3.4").1 = .appendFailed ∧
    (mark_bad ⟨false, true, true, "ts"⟩
        ⟨[("8.8.8.8", "x")], true, some ["8.8.8.8"], 77⟩ "1.2.3.4").2.badIpsCacheSet
      = none ∧
    (mark_bad ⟨false, true, true, "ts"⟩
        ⟨[("8.8.8.8", "x")], true, some ["8.8.8.8"], 77⟩ "1.2.3.4").2.badCacheExpiry
      = 0 := by
  have h := mark_bad_cache_cleared ⟨false, true, true, "ts"⟩
    ⟨[("8.8.8.8", "x")], true, some ["8.8.8.8"], 77⟩ "1.2.3.4" (by decide)
  exact ⟨by decide, h.1, h.2⟩

theorem rankInsert_front (x : Annotated) (l : List Annotated)
    (h : ∀ y ∈ l, ¬ rankKey y < rankKey x) : rankInsert x l = x :: l := by
  cases l with
  | nil => rfl
  | cons y ys =>
    simp only [rankInsert]
    rw [if_neg (h y (List.mem_cons_self y ys))]

theorem rankInsert_skip (x : Annotated) (a : List Annotated) :
    ∀ b, (∀ y ∈ a, rankKey y < rankKey x) →
      rankInsert x (a ++ b) = a ++ rankInsert x b := by
  induction a with
  | nil => intro b _; rfl
  | cons y ys ih =>
    intro b h
    rw [List.cons_append]
    simp only [rankInsert]
    rw [if_pos (h y (List.mem_cons_self y ys))]
    rw [ih b (fun z hz => h z (List.mem_cons_of_mem y hz))]
    rfl

theorem rankInsert_at (x : Annotated) (lo hi : List Annotated)
    (hlo : ∀ y ∈ lo, rankKey y < rankKey x)
    (hhi : ∀ y ∈ hi, ¬ rankKey y < rankKey x) :
    rankInsert x (lo ++ hi) = lo ++ x :: hi := by
  rw [rankInsert_skip x lo hi hlo, rankInsert_front x hi hhi]

/-- C3: the ranked presentation order is the stable ascending sort by
`(badFlag, usedFlag)`: the new-and-unused block first, then the
used-but-not-bad block, then the bad entries last (bad-and-not-used
before bad-and-used, per the ascending key), each block preserving
the original completion order (`List.filter` keeps relative order). -/
theorem rank_blocks (rs : List Annotated) :
    rank rs = rs.filter (fun a => !a.bad && !a.used)
        ++ rs.filter (fun a => !a.bad && a.used)
        ++ rs.filter (fun a => a.bad && !a.used)
        ++ rs.filter (fun a => a.bad && a.used) := by
  induction rs with
  | nil => rfl
  | cons x xs ih =>
    have hk0 : ∀ y ∈ xs.filter (fun a => !a.bad && !a.used), rankKey y = 0 := by
      intro y hy
      obtain ⟨-, hp⟩ := List.mem_filter.mp hy
      simp only [Bool.and_eq_true, Bool.not_eq_true'] at hp
      simp [rankKey, hp.1, hp.2]
    have hk1 : ∀ y ∈ xs.filter (fun a => !a.bad && a.used), rankKey y = 1 := by
      intro y hy
      obtain ⟨-, hp⟩ := List.mem_filter.mp hy
      simp only [Bool.and_eq_true, Bool.not_eq_true'] at hp
      simp [rankKey, hp.1, hp.2]
    have hk2 : ∀ y ∈ xs.filter (fun a => a.bad && !a.used), rankKey y = 2 := by
      intro y hy
      obtain ⟨-, hp⟩ := List.mem_filter.mp hy
      simp only [Bool.and_eq_true, Bool.not_eq_true'] at hp
      simp [rankKey, hp.1, hp.2]
    have hk3 : ∀ y ∈ xs.filter (fun a => a.bad && a.used), rankKey y = 3 := by
      intro y hy
      obtain ⟨-, hp⟩ := List.mem_filter.mp hy
      simp only [Bool.and_eq_true, Bool.not_eq_true'] at hp
      simp [rankKey, hp.1, hp.2]
    show rankInsert x (rank xs) = _
    rw [ih]
    cases hb : x.bad with
    | false =>
      cases hu : x.used with
      | false =>
        have hkx : rankKey x = 0 := by simp [rankKey, hb, hu]
        rw [rankInsert_front x _ (fun y hy => by rw [hkx]; omega)]
        simp [List.filter_cons, hb, hu]
      | true =>
        have hkx : rankKey x = 1 := by simp [rankKey, hb, hu]
        rw [List.append_assoc, List.append_assoc]
        rw [rankInsert_at x _ _ (fun y hy => by rw [hk0 y hy, hkx]; omega)
          (fun y hy => by
            rw [hkx]
            rcases List.mem_append.mp hy with h1 | h23
            · rw [hk1 y h1]; omega
            · rcases List.mem_append.mp h23 with h2 | h3
              · rw [hk2 y h2]; omega
              · rw [hk3 y h3]; omega)]
        simp [List.filter_cons, hb, hu]
    | true =>
      cases hu : x.used with
      | false =>
        have hkx : rankKey x = 2 := by simp [rankKey, hb, hu]
        rw [List.append_assoc (xs.filter (fun a => !a.bad && !a.used)
          ++ xs.filter (fun a => !a.bad && a.used))]
        rw [rankInsert_at x _ _
          (fun y hy => by
            rw [hkx]
            rcases List.mem_append.mp hy with h0 | h1
            · rw [hk0 y h0]; omega
            · rw [hk1 y h1]; omega)
          (fun y hy => by
            rw [hkx]
            rcases List.mem_append.mp hy with h2 | h3
            · rw [hk2 y h2]; omega
            · rw [hk3 y h3]; omega)]
        simp [List.filter_cons, hb, hu]
      | true =>
        have hkx : rankKey x = 3 := by simp [rankKey, hb, hu]
        rw [rankInsert_at x _ _
          (fun y hy => by
            rw [hkx]
            rcases List.mem_append.mp hy with h01 | h2
            · rcases List.mem_append.mp h01 with h0 | h1
              · rw [hk0 y h0]; omega
              · rw [hk1 y h1]; omega
            · rw [hk2 y h2]; omega)
          (fun y hy => by rw [hk3 y hy, hkx]; omega)]
        simp [List.filter_cons, hb, hu]
